import Mathlib

/-!
Verification of the `metadata` package of go-rancher-metadata
(`src/metadata/metadata.go`), a client library for a remote
infrastructure-metadata service.

The embedding is shallow: each Go method becomes a Lean function over the
already-fetched (and, where relevant, already-decoded) data; the network
transport is an explicit input.  Go's `(value, error)` return pairs are
modelled as `α × Option GoError`, where `none` is Go's `nil` error.  Go
slices that may be `nil` are modelled as `Option (List α)` (`none` = the
nil slice) where the nil/non-nil distinction is observable; elsewhere a
plain `List` is used.
-/

namespace RancherMetadata

/-- A Go `error` value, identified by its message (as produced by
`fmt.Errorf`). -/
abbrev GoError := String

/-- Modelled from the spec: entity shapes (the repo's type-declaration file
is not under `src/`); the fields are exactly those the code in
`metadata.go` reads (`svc.StackName`, `svc.Name`). A `Service` belongs to a
stack and appears inside an `Environment`'s service list. -/
structure Service where
  name : String
  stackName : String
deriving DecidableEq

instance : Inhabited Service := ⟨⟨"", ""⟩⟩

/-- Modelled from the spec: an `Environment` has a name, a region name and
an ordered sequence of services (fields read by the code:
`env.Name`, `env.RegionName`, `env.Services`). -/
structure Environment where
  name : String
  regionName : String
  services : List Service
deriving DecidableEq

/-- Modelled from the spec: a `Container` belongs to one service within a
stack (fields read by the code: `container.ServiceName`,
`container.StackName`). -/
structure Container where
  name : String
  serviceName : String
  stackName : String
deriving DecidableEq

/-- Modelled from the spec: a `Host` is standalone and addressed by UUID
(field read by the code: `host.UUID`). -/
structure Host where
  uuid : String
  name : String
deriving DecidableEq

instance : Inhabited Host := ⟨⟨"", ""⟩⟩

/-- Modelled from the spec: a `Stack` is a named grouping of services. -/
structure Stack where
  name : String
deriving DecidableEq

/-- Modelled from the spec: a `Network` is standalone, with a name. -/
structure Network where
  name : String
deriving DecidableEq

/-! ## Transport: `SendRequest` -/

/-- An HTTP response as seen by `SendRequest`: a status code and the result
of reading its body (`ioutil.ReadAll` may fail). -/
structure HttpResponse where
  statusCode : Nat
  body : Except GoError String

/-- The transport environment of one `SendRequest` call: the outcome of
`http.NewRequest` (whose error, if any, the code overwrites without
checking) and the outcome of `m.client.Do`. -/
structure Transport where
  newRequestErr : Option GoError
  doResult : Except GoError HttpResponse

/-- `SendRequest` (metadata.go lines 74–95): builds the GET request
(discarding the construction error — in Go a failed construction would
crash at `req.Header.Add` before any error could be returned), executes it,
rejects any status other than 200 with an error naming the status and the
path, then reads the body.  Returns Go's `([]byte, error)` pair with a nil
body (`none`) on every error path. -/
def sendRequest (t : Transport) (path : String) : Option String × Option GoError :=
  let _errFromNewRequest := t.newRequestErr
  match t.doResult with
  | .error e => (none, some e)
  | .ok resp =>
    if resp.statusCode ≠ 200 then
      (none, some ("Error " ++ toString resp.statusCode ++ " accessing " ++ path ++ " path"))
    else
      match resp.body with
      | .error e => (none, some e)
      | .ok b => (some b, none)

/-! ## Region name -/

/-- Go's `strings.TrimSuffix(s, suffix)`: remove `suffix` once if `s` ends
with it, otherwise return `s` unchanged. -/
def trimTrailing (s suffix : String) : String :=
  if List.isSuffixOf suffix.data s.data then
    String.mk (s.data.take (s.data.length - suffix.data.length))
  else s

/-- Go's `strings.TrimPrefix(s, pre)`: remove `pre` once if `s` starts with
it, otherwise return `s` unchanged. -/
def trimLeading (s pre : String) : String :=
  if List.isPrefixOf pre.data s.data then
    String.mk (s.data.drop pre.data.length)
  else s

/-- The unquoting performed by `GetRegionName` (metadata.go lines 110–112):
trim one trailing `"` if present, then one leading `"` if present. -/
def unquoteRegionName (s : String) : String :=
  trimLeading (trimTrailing s "\"") "\""

/-- `GetRegionName` (metadata.go lines 105–114): fetch `/region_name` and
unquote the raw response; on a transport error return `("", err)`. -/
def getRegionName (resp : Except GoError String) : String × Option GoError :=
  match resp with
  | .error e => ("", some e)
  | .ok s => (unquoteRegionName s, none)

/-! ## Resolution cascade

Each lookup takes the combined fetch-and-decode outcome of the bulk
listing it consumes as an explicit `Except` input (on either a transport
or a decode error the Go local being decoded into still holds its zero
value, and the method returns early with that zero value and the error). -/

/-- The inner loop of `GetServiceByRegionEnvironment` (metadata.go lines
214–218): scan a matching environment's service list for the first service
whose stack name and name match. -/
def scanServices (services : List Service) (stackName svcName : String) : Option Service :=
  match services with
  | [] => none
  | svc :: rest =>
    if stackName == svc.stackName && svcName == svc.name then some svc
    else scanServices rest stackName svcName

/-- The outer loop of `GetServiceByRegionEnvironment` (metadata.go lines
212–220): scan the environment listing; inside each environment whose
region name and name match, scan its services; keep going when an
environment (or its service list) does not match. -/
def scanEnvironments (environments : List Environment) (regionName envName stackName svcName : String) : Option Service :=
  match environments with
  | [] => none
  | env :: rest =>
    if regionName == env.regionName && envName == env.name then
      match scanServices env.services stackName svcName with
      | some svc => some svc
      | none => scanEnvironments rest regionName envName stackName svcName
    else scanEnvironments rest regionName envName stackName svcName

/-- `GetServiceByRegionEnvironment` (metadata.go lines 200–222): on a
fetch/decode error, return the zero `Service` and the error; otherwise run
the nested scan, returning the zero `Service` and a nil error when nothing
matches. -/
def getServiceByRegionEnvironment (envsResult : Except GoError (List Environment))
    (regionName envName stackName svcName : String) : Service × Option GoError :=
  match envsResult with
  | .error e => (default, some e)
  | .ok environments =>
    match scanEnvironments environments regionName envName stackName svcName with
    | some svc => (svc, none)
    | none => (default, none)

/-- `GetServiceByEnvironment` (metadata.go lines 224–231): resolve the
caller's region via `GetRegionName`, propagating its error with the zero
`Service`, then delegate to `GetServiceByRegionEnvironment`. -/
def getServiceByEnvironment (regionResp : Except GoError String)
    (envsResult : Except GoError (List Environment))
    (envName stackName svcName : String) : Service × Option GoError :=
  match getRegionName regionResp with
  | (_, some e) => (default, some e)
  | (regionName, none) =>
    getServiceByRegionEnvironment envsResult regionName envName stackName svcName

/-- The accumulation loop of `GetServicesByRegionEnvironment` (metadata.go
lines 271–275): append every matching environment's whole service list to
the accumulator, in encounter order. -/
def gatherServices (environments : List Environment) (regionName envName : String) : List Service :=
  environments.foldl
    (fun acc env =>
      if regionName == env.regionName && envName == env.name then acc ++ env.services
      else acc)
    []

/-- `GetServicesByRegionEnvironment` (metadata.go lines 259–277): on a
fetch/decode error return the (nil) service slice and the error; otherwise
accumulate the services of every matching environment. -/
def getServicesByRegionEnvironment (envsResult : Except GoError (List Environment))
    (regionName envName : String) : List Service × Option GoError :=
  match envsResult with
  | .error e => ([], some e)
  | .ok environments => (gatherServices environments regionName envName, none)

/-- The scan loop of `GetHost` (metadata.go lines 350–354): first host
whose UUID matches. -/
def hostLoop (hosts : List Host) (uuid : String) : Option Host :=
  match hosts with
  | [] => none
  | h :: rest => if h.uuid == uuid then some h else hostLoop rest uuid

/-- `GetHosts` (metadata.go lines 331–342): the decoded listing, or a nil
slice (`none`) together with the fetch/decode error. -/
def getHosts (resp : Except GoError (List Host)) : Option (List Host) × Option GoError :=
  match resp with
  | .error e => (none, some e)
  | .ok hosts => (some hosts, none)

/-- `GetHost` (metadata.go lines 344–357): propagate a `GetHosts` error
with the zero `Host`; otherwise scan linearly and, when no UUID matches,
return the zero `Host` with the `fmt.Errorf` NotFound error carrying the
queried UUID. -/
def getHost (resp : Except GoError (List Host)) (uuid : String) : Host × Option GoError :=
  match getHosts resp with
  | (_, some e) => (default, some e)
  | (hosts, none) =>
    match hostLoop (hosts.getD []) uuid with
    | some h => (h, none)
    | none => (default, some ("could not find host by UUID " ++ uuid))

/-- `GetContainers` (metadata.go lines 302–313): the decoded listing, or a
nil slice (`none`) together with the fetch/decode error. -/
def getContainers (resp : Except GoError (List Container)) : Option (List Container) × Option GoError :=
  match resp with
  | .error e => (none, some e)
  | .ok containers => (some containers, none)

/-- The filter loop of `GetServiceContainers` (metadata.go lines 322–326):
append each container whose stack name and service name both match. -/
def serviceContainersLoop (containers : List Container) (serviceName stackName : String) : List Container :=
  containers.foldl
    (fun acc c =>
      if c.stackName == stackName && c.serviceName == serviceName then acc ++ [c]
      else acc)
    []

/-- `GetServiceContainers` (metadata.go lines 315–329): the result slice is
initialized to the non-nil empty slice `[]Container{}` and is returned even
when `GetContainers` fails; otherwise it collects the matching containers
in listing order. -/
def getServiceContainers (resp : Except GoError (List Container))
    (serviceName stackName : String) : Option (List Container) × Option GoError :=
  match getContainers resp with
  | (_, some e) => (some [], some e)
  | (containers, none) =>
    (some (serviceContainersLoop (containers.getD []) serviceName stackName), none)

/-- `GetServices` (metadata.go lines 233–244): the decoded listing, or a
nil slice (`none`) together with the fetch/decode error. -/
def getServices (resp : Except GoError (List Service)) : Option (List Service) × Option GoError :=
  match resp with
  | .error e => (none, some e)
  | .ok services => (some services, none)

/-- `GetStacks` (metadata.go lines 246–257): the decoded listing, or a nil
slice (`none`) together with the fetch/decode error. -/
def getStacks (resp : Except GoError (List Stack)) : Option (List Stack) × Option GoError :=
  match resp with
  | .error e => (none, some e)
  | .ok ss => (some ss, none)

/-- `GetNetworks` (metadata.go lines 359–371): the decoded listing, or a
nil slice (`none`) together with the fetch/decode error. -/
def getNetworks (resp : Except GoError (List Network)) : Option (List Network) × Option GoError :=
  match resp with
  | .error e => (none, some e)
  | .ok networks => (some networks, none)

/-! ## Change-notification loop -/

/-- Modelled from the spec: one tick of the polling loop behind
`Client.OnChange` / `Client.OnChangeWithError`, whose implementation is not
under `src/` (only the interface declaration at metadata.go lines 13–14
is).  Per the spec's algorithm: fetch the version; if the fetch fails, skip
the tick (no callback, no state change); if it succeeds and the version
differs from the last observed value, update the last observed value and
fire the callback with the new version.  Returns the new last-observed
value and the callback argument when the callback fired. -/
def onChangeStep (lastVersion : String) (fetch : Except GoError String) : String × Option String :=
  match fetch with
  | .error _ => (lastVersion, none)
  | .ok v => if v == lastVersion then (lastVersion, none) else (v, some v)

/-- Modelled from the spec: run the polling loop over a finite sequence of
per-tick version-fetch outcomes, starting from the spec's initial state
(last observed version initialized empty), and collect the sequence of
callback invocations in order. -/
def onChangeRun (ticks : List (Except GoError String)) : List String :=
  (ticks.foldl
    (fun (st : String × List String) fetch =>
      match onChangeStep st.1 fetch with
      | (newLast, some v) => (newLast, st.2 ++ [v])
      | (newLast, none) => (newLast, st.2))
    ("", [])).2

/-! ## Helper lemmas -/

/-- The inner service scan is `List.find?` of the match predicate. -/
theorem scanServices_eq_find? (services : List Service) (stackName svcName : String) :
    scanServices services stackName svcName =
      services.find? fun svc => stackName == svc.stackName && svcName == svc.name := by
  induction services with
  | nil => rfl
  | cons svc rest ih =>
    simp only [scanServices, List.find?]
    by_cases h : (stackName == svc.stackName && svcName == svc.name) = true
    · simp [h]
    · simp [h, ih]

/-- The nested environment scan returns the first matching service among the
services of all matching environments, in encounter order. -/
theorem scanEnvironments_eq_find? (environments : List Environment) (r e st sv : String) :
    scanEnvironments environments r e st sv =
      ((environments.filter fun env => r == env.regionName && e == env.name).flatMap
        Environment.services).find? fun svc => st == svc.stackName && sv == svc.name := by
  induction environments with
  | nil => rfl
  | cons env rest ih =>
    simp only [scanEnvironments, List.filter_cons]
    by_cases h : (r == env.regionName && e == env.name) = true
    · simp only [h, if_true, List.flatMap_cons, List.find?_append, scanServices_eq_find?]
      cases hf : env.services.find? fun svc => st == svc.stackName && sv == svc.name with
      | some svc => simp [Option.or]
      | none => simp [Option.or, ih]
    · simp [h, ih]

/-- An accumulate-whole-service-lists fold equals the concatenation of the
service lists of the kept elements. -/
theorem foldl_append_services (p : Environment → Bool) (l : List Environment) (acc : List Service) :
    l.foldl (fun a env => if p env then a ++ env.services else a) acc =
      acc ++ (l.filter p).flatMap Environment.services := by
  induction l generalizing acc with
  | nil => simp
  | cons env rest ih =>
    simp only [List.foldl_cons, List.filter_cons]
    by_cases h : p env
    · simp [h, ih]
    · simp [h, ih]

/-- The accumulation loop of `GetServicesByRegionEnvironment` concatenates
the service lists of the matching environments in encounter order. -/
theorem gatherServices_eq_flatMap (environments : List Environment) (r e : String) :
    gatherServices environments r e =
      ((environments.filter fun env => r == env.regionName && e == env.name).flatMap
        Environment.services) := by
  rw [gatherServices, foldl_append_services]
  simp

/-- An append-one-element fold equals `List.filter`. -/
theorem foldl_append_filter {α : Type} (p : α → Bool) (l : List α) (acc : List α) :
    l.foldl (fun a c => if p c then a ++ [c] else a) acc = acc ++ l.filter p := by
  induction l generalizing acc with
  | nil => simp
  | cons c rest ih =>
    simp only [List.foldl_cons, List.filter_cons]
    by_cases h : p c
    · simp [h, ih]
    · simp [h, ih]

/-- The filter loop of `GetServiceContainers` is `List.filter` of the match
predicate. -/
theorem serviceContainersLoop_eq_filter (containers : List Container) (sn stn : String) :
    serviceContainersLoop containers sn stn =
      containers.filter fun c => c.stackName == stn && c.serviceName == sn := by
  rw [serviceContainersLoop, foldl_append_filter]
  simp

/-- The host scan loop is `List.find?` of the UUID match. -/
theorem hostLoop_eq_find? (hosts : List Host) (uuid : String) :
    hostLoop hosts uuid = hosts.find? fun h => h.uuid == uuid := by
  induction hosts with
  | nil => rfl
  | cons h rest ih =>
    simp only [hostLoop, List.find?]
    by_cases hm : (h.uuid == uuid) = true
    · simp [hm]
    · simp [hm, ih]

/-- The data of the one-character quote string. -/
theorem quote_data : ("\"" : String).data = ['"'] := rfl

/-- When a string neither ends nor starts with a quote, the unquoting is a
no-op. -/
theorem unquoteRegionName_noop (s : String)
    (h1 : List.isSuffixOf ("\"" : String).data s.data = false)
    (h2 : List.isPrefixOf ("\"" : String).data s.data = false) :
    unquoteRegionName s = s := by
  rw [unquoteRegionName, trimTrailing, if_neg (by simp [h1]), trimLeading, if_neg (by simp [h2])]

/-- Wrapping any string in one pair of quotes and unquoting recovers it:
exactly one trailing and one leading quote are stripped. -/
theorem unquoteRegionName_wrap (t : String) : unquoteRegionName ("\"" ++ t ++ "\"") = t := by
  have hdata : ("\"" ++ t ++ "\"").data = ('"' :: t.data) ++ ['"'] := by
    rw [String.data_append, String.data_append]; rfl
  have hsuf : List.isSuffixOf ("\"" : String).data ("\"" ++ t ++ "\"").data = true := by
    rw [hdata, quote_data]
    simp only [List.isSuffixOf_iff_suffix]
    exact List.suffix_append _ _
  have h1 : trimTrailing ("\"" ++ t ++ "\"") "\"" = String.mk ('"' :: t.data) := by
    rw [trimTrailing, if_pos hsuf, hdata, quote_data]
    have hlen : (('"' :: t.data) ++ ['"']).length - (['"'] : List Char).length =
        ('"' :: t.data).length := by simp
    rw [hlen, List.take_left]
  have hpre : List.isPrefixOf ("\"" : String).data (String.mk ('"' :: t.data)).data = true := by
    simp [quote_data, List.isPrefixOf]
  rw [unquoteRegionName, h1, trimLeading, if_pos hpre, quote_data]
  rfl

/-! ## Claims -/

/-- C1: for every environments listing and every (region, environment,
stack, service) query, `GetServiceByRegionEnvironment` returns the first
service — in the linear scan over the listing, restricted to environments
whose region name and name match, in encounter order — whose stack name and
name match, and the zero-value `Service` when there is none; in both cases
the returned error is nil. -/
theorem getServiceByRegionEnvironment_first_match_or_zero
    (envs : List Environment) (r e st sv : String) :
    getServiceByRegionEnvironment (.ok envs) r e st sv =
      ((((envs.filter fun env => r == env.regionName && e == env.name).flatMap
          Environment.services).find? fun svc =>
            st == svc.stackName && sv == svc.name).getD default,
       none) := by
  have hred : getServiceByRegionEnvironment (.ok envs) r e st sv =
      (match scanEnvironments envs r e st sv with
       | some svc => (svc, none)
       | none => (default, none)) := rfl
  rw [hred, scanEnvironments_eq_find?]
  cases hf : ((envs.filter fun env => r == env.regionName && e == env.name).flatMap
      Environment.services).find? fun svc => st == svc.stackName && sv == svc.name with
  | some svc => simp
  | none => simp

/-- C2: `GetHost` returns a host whose UUID equals the queried UUID with a
nil error when one exists in the listing, and otherwise the zero `Host`
together with the NotFound error message carrying the queried UUID. -/
theorem getHost_found_or_notFound (hosts : List Host) (uuid : String) :
    ((∃ h ∈ hosts, h.uuid = uuid) →
      ∃ h, getHost (.ok hosts) uuid = (h, none) ∧ h.uuid = uuid ∧ h ∈ hosts) ∧
    ((∀ h ∈ hosts, h.uuid ≠ uuid) →
      getHost (.ok hosts) uuid = (default, some ("could not find host by UUID " ++ uuid))) := by
  have hred : getHost (.ok hosts) uuid =
      (match hostLoop hosts uuid with
       | some h => (h, none)
       | none => (default, some ("could not find host by UUID " ++ uuid))) := rfl
  rw [hostLoop_eq_find?] at hred
  constructor
  · rintro ⟨h, hmem, huuid⟩
    cases hfind : hosts.find? (fun x => x.uuid == uuid) with
    | none =>
      exact absurd (List.find?_eq_none.mp hfind h hmem) (by simp [huuid])
    | some h' =>
      refine ⟨h', ?_, ?_, List.mem_of_find?_eq_some hfind⟩
      · rw [hred, hfind]
      · simpa using List.find?_some hfind
  · intro hall
    have hnone : hosts.find? (fun x => x.uuid == uuid) = none := by
      rw [List.find?_eq_none]
      intro x hx
      simp [hall x hx]
    rw [hred, hnone]

/-- C2 witness: a host with the queried UUID is found with a nil error, and
the lookup on a listing without it yields the NotFound message carrying the
UUID. -/
theorem getHost_found_or_notFound_witness :
    (∃ h, getHost (.ok [(⟨"u1", "h1"⟩ : Host)]) "u1" = (h, none) ∧ h.uuid = "u1" ∧
        h ∈ [(⟨"u1", "h1"⟩ : Host)]) ∧
    getHost (.ok ([] : List Host)) "u2" =
      (default, some ("could not find host by UUID " ++ "u2")) :=
  ⟨(getHost_found_or_notFound [⟨"u1", "h1"⟩] "u1").1 ⟨⟨"u1", "h1"⟩, by simp, rfl⟩,
   (getHost_found_or_notFound [] "u2").2 (by simp)⟩

/-- C3: whenever `GetRegionName` succeeds with region `r`,
`GetServiceByEnvironment` returns exactly the result of
`GetServiceByRegionEnvironment` at `r` against the same environments
listing. -/
theorem getServiceByEnvironment_delegates (regionResp : Except GoError String)
    (envsResult : Except GoError (List Environment)) (r e st sv : String)
    (h : getRegionName regionResp = (r, none)) :
    getServiceByEnvironment regionResp envsResult e st sv =
      getServiceByRegionEnvironment envsResult r e st sv := by
  simp only [getServiceByEnvironment, h]

/-- C3 witness: with a successful region-name fetch of `"r1"` (quoted on
the wire), the two lookup forms agree on a concrete listing. -/
theorem getServiceByEnvironment_delegates_witness :
    getServiceByEnvironment (.ok "\"r1\"") (.ok ([] : List Environment)) "e" "st" "sv" =
      getServiceByRegionEnvironment (.ok ([] : List Environment)) "r1" "e" "st" "sv" :=
  getServiceByEnvironment_delegates (.ok "\"r1\"") (.ok []) "r1" "e" "st" "sv" (by decide)

/-- C4 counterexample: on the version-response sequence
`["v1","v1","v2","v2","v3"]`, the loop (last observed version initialized
empty, callback on every difference) does not fire exactly twice with
`"v2"` then `"v3"`: the first successful fetch `"v1"` already differs from
the empty initial value and fires the callback as well. -/
theorem onChange_example_fires_thrice_not_twice :
    ¬ onChangeRun [.ok "v1", .ok "v1", .ok "v2", .ok "v2", .ok "v3"] = ["v2", "v3"] := by
  decide

/-- C4 amended: on the version-response sequence
`["v1","v1","v2","v2","v3"]` delivered one per tick to a freshly started
loop whose last-observed version is initialized empty, the callback fires
exactly three times, with arguments `"v1"`, `"v2"`, `"v3"`, in that
order. -/
theorem onChange_example_callback_sequence :
    onChangeRun [.ok "v1", .ok "v1", .ok "v2", .ok "v2", .ok "v3"] = ["v1", "v2", "v3"] := by
  decide

/-- C5: `GetServicesByRegionEnvironment` returns the concatenation, in
encounter order, of the service lists of every environment in the listing
whose region name and name both match (duplicated matching environment
records included), with a nil error. -/
theorem getServicesByRegionEnvironment_concat_matching
    (envs : List Environment) (r e : String) :
    getServicesByRegionEnvironment (.ok envs) r e =
      ((envs.filter fun env => r == env.regionName && e == env.name).flatMap
        Environment.services, none) := by
  have hred : getServicesByRegionEnvironment (.ok envs) r e =
      (gatherServices envs r e, none) := rfl
  rw [hred, gatherServices_eq_flatMap]

/-- C6: `GetServiceContainers` returns exactly the containers whose stack
name and service name both equal the queried pair, in listing order, with a
nil error — the empty sequence (not an error) when nothing matches. -/
theorem getServiceContainers_filter_order
    (containers : List Container) (sn stn : String) :
    getServiceContainers (.ok containers) sn stn =
      (some (containers.filter fun c => c.stackName == stn && c.serviceName == sn), none) := by
  have hred : getServiceContainers (.ok containers) sn stn =
      (some (serviceContainersLoop containers sn stn), none) := rfl
  rw [hred, serviceContainersLoop_eq_filter]

/-- C7 counterexample: the region-name unquoting is not idempotent: on the
three-quote string `"\"\"\""` one application leaves a single quote
character, and a second application strips it. -/
theorem unquoteRegionName_not_idempotent :
    ¬ unquoteRegionName (unquoteRegionName "\"\"\"") = unquoteRegionName "\"\"\"" := by
  decide

/-- C7 amended: the unquoting strips exactly one trailing and one leading
quote character if present (wrapping any string in one pair of quotes and
unquoting recovers it) and is a no-op on a string that neither starts nor
ends with a quote; it is idempotent only in the guarded sense that a second
application is the identity whenever the once-unquoted string itself
neither starts nor ends with a quote. -/
theorem unquoteRegionName_strip_once_guarded_idempotent (s : String) :
    (List.isSuffixOf ("\"" : String).data s.data = false →
      List.isPrefixOf ("\"" : String).data s.data = false → unquoteRegionName s = s) ∧
    (∀ t : String, unquoteRegionName ("\"" ++ t ++ "\"") = t) ∧
    (List.isSuffixOf ("\"" : String).data (unquoteRegionName s).data = false →
      List.isPrefixOf ("\"" : String).data (unquoteRegionName s).data = false →
      unquoteRegionName (unquoteRegionName s) = unquoteRegionName s) :=
  ⟨fun h1 h2 => unquoteRegionName_noop s h1 h2,
   unquoteRegionName_wrap,
   fun h1 h2 => unquoteRegionName_noop (unquoteRegionName s) h1 h2⟩

/-- C7 witness: the no-op, strip-one-pair and guarded-idempotence parts at
concrete strings. -/
theorem unquoteRegionName_strip_once_guarded_idempotent_witness :
    unquoteRegionName "abc" = "abc" ∧
    unquoteRegionName ("\"" ++ "x" ++ "\"") = "x" ∧
    unquoteRegionName (unquoteRegionName "abc") = unquoteRegionName "abc" :=
  ⟨(unquoteRegionName_strip_once_guarded_idempotent "abc").1 (by decide) (by decide),
   (unquoteRegionName_strip_once_guarded_idempotent "abc").2.1 "x",
   (unquoteRegionName_strip_once_guarded_idempotent "abc").2.2 (by decide) (by decide)⟩

/-- C8: `SendRequest` turns every response whose status is not 200 into a
nil body and an error message carrying the status code and the path, and it
returns a body with a nil error only when the status is exactly 200. -/
theorem sendRequest_non200_error (t : Transport) (path : String) :
    (∀ resp, t.doResult = .ok resp → resp.statusCode ≠ 200 →
      sendRequest t path =
        (none, some ("Error " ++ toString resp.statusCode ++ " accessing " ++ path ++
          " path"))) ∧
    (∀ b, sendRequest t path = (some b, none) →
      ∃ resp, t.doResult = .ok resp ∧ resp.statusCode = 200 ∧ resp.body = .ok b) := by
  constructor
  · intro resp hdo hst
    simp [sendRequest, hdo, hst]
  · intro b hsend
    cases hdo : t.doResult with
    | error e =>
      have : sendRequest t path = (none, some e) := by simp [sendRequest, hdo]
      rw [this] at hsend
      exact absurd hsend (by simp)
    | ok resp =>
      by_cases hst : resp.statusCode = 200
      · cases hb : resp.body with
        | error e =>
          have : sendRequest t path = (none, some e) := by simp [sendRequest, hdo, hst, hb]
          rw [this] at hsend
          exact absurd hsend (by simp)
        | ok bb =>
          have : sendRequest t path = (some bb, none) := by simp [sendRequest, hdo, hst, hb]
          rw [this] at hsend
          have hb' : bb = b := by simpa using hsend
          exact ⟨resp, rfl, hst, hb' ▸ hb⟩
      · have : sendRequest t path =
            (none, some ("Error " ++ toString resp.statusCode ++ " accessing " ++ path ++
              " path")) := by
          simp [sendRequest, hdo, hst]
        rw [this] at hsend
        exact absurd hsend (by simp)

/-- C8 witness: a 404 response yields a nil body with the status-and-path
error message, and a 200 response with a readable body is the only way to
get a body with a nil error. -/
theorem sendRequest_non200_error_witness :
    sendRequest ⟨none, .ok ⟨404, .ok "body"⟩⟩ "/hosts" =
      (none, some ("Error " ++ toString 404 ++ " accessing " ++ "/hosts" ++ " path")) ∧
    ∃ resp, (⟨none, .ok ⟨200, .ok "b"⟩⟩ : Transport).doResult = .ok resp ∧
      resp.statusCode = 200 ∧ resp.body = .ok "b" :=
  ⟨(sendRequest_non200_error ⟨none, .ok ⟨404, .ok "body"⟩⟩ "/hosts").1
      ⟨404, .ok "body"⟩ rfl (by decide),
   (sendRequest_non200_error ⟨none, .ok ⟨200, .ok "b"⟩⟩ "/x").2 "b" (by decide)⟩

/-- C9: the error from building the request is discarded — the result of
`SendRequest` does not depend on it at all — and every error `SendRequest`
returns comes from executing the request, from a non-200 status, or from
reading the body. -/
theorem sendRequest_discards_newRequestErr (e₁ e₂ : Option GoError)
    (d : Except GoError HttpResponse) (path : String) :
    sendRequest ⟨e₁, d⟩ path = sendRequest ⟨e₂, d⟩ path ∧
    (∀ err, (sendRequest ⟨e₁, d⟩ path).2 = some err →
      d = .error err ∨
      (∃ resp, d = .ok resp ∧ resp.statusCode ≠ 200 ∧
        err = "Error " ++ toString resp.statusCode ++ " accessing " ++ path ++ " path") ∨
      (∃ resp, d = .ok resp ∧ resp.body = .error err)) := by
  refine ⟨rfl, ?_⟩
  intro err herr
  cases d with
  | error e =>
    left
    have : e = err := by simpa [sendRequest] using herr
    rw [this]
  | ok resp =>
    by_cases hst : resp.statusCode = 200
    · cases hb : resp.body with
      | error e =>
        right; right
        refine ⟨resp, rfl, ?_⟩
        have : e = err := by simpa [sendRequest, hst, hb] using herr
        rw [hb, this]
      | ok bb =>
        have : (sendRequest ⟨e₁, .ok resp⟩ path).2 = none := by
          simp [sendRequest, hst, hb]
        rw [this] at herr
        exact absurd herr (by simp)
    · right; left
      refine ⟨resp, rfl, hst, ?_⟩
      have : some ("Error " ++ toString resp.statusCode ++ " accessing " ++ path ++ " path") =
          some err := by
        simpa [sendRequest, hst] using herr
      exact (Option.some_inj.mp this).symm

/-- C9 witness: two transports differing only in the request-construction
error give identical results, and a transport error is classified as
arising from executing the request. -/
theorem sendRequest_discards_newRequestErr_witness :
    sendRequest ⟨some "ctor failed", .error "boom"⟩ "/p" =
      sendRequest ⟨none, .error "boom"⟩ "/p" ∧
    ((Except.error "boom" : Except GoError HttpResponse) = .error "boom" ∨
      (∃ resp, (Except.error "boom" : Except GoError HttpResponse) = .ok resp ∧
        resp.statusCode ≠ 200 ∧
        "boom" = "Error " ++ toString resp.statusCode ++ " accessing " ++ "/p" ++ " path") ∨
      (∃ resp, (Except.error "boom" : Except GoError HttpResponse) = .ok resp ∧
        resp.body = .error "boom")) :=
  ⟨(sendRequest_discards_newRequestErr (some "ctor failed") none (.error "boom") "/p").1,
   (sendRequest_discards_newRequestErr (some "ctor failed") none (.error "boom") "/p").2
     "boom" (by decide)⟩

/-- C10: `GetServiceContainers` always returns a non-nil slice — the empty
slice even when the underlying containers fetch fails — whereas the bulk
accessors `GetContainers`, `GetHosts`, `GetServices`, `GetStacks` and
`GetNetworks` return the nil slice alongside any fetch/decode error. -/
theorem serviceContainers_nonNil_bulk_nil (e : GoError) (sn stn : String)
    (cs : List Container) :
    getServiceContainers (.error e) sn stn = (some [], some e) ∧
    getServiceContainers (.ok cs) sn stn = (some (serviceContainersLoop cs sn stn), none) ∧
    getContainers (.error e) = (none, some e) ∧
    getHosts (.error e) = (none, some e) ∧
    getServices (.error e) = (none, some e) ∧
    getStacks (.error e) = (none, some e) ∧
    getNetworks (.error e) = (none, some e) :=
  ⟨rfl, rfl, rfl, rfl, rfl, rfl, rfl⟩

end RancherMetadata
